import Mathlib

/-!
Shallow embedding of the rustbook guessing game (src/src/main.rs) and
verification of its specification.

The program: prints a banner, draws a secret with
rand::thread_rng().gen_range(1, 101), then loops: prints a prompt, reads a
line from stdin (panicking via .expect on an OS-level read failure), parses
the trimmed line as u32 (on parse failure it silently continues), prints
"You guessed: n", and three-way compares the guess against the secret,
printing a verdict and breaking out of the loop on equality.
-/

namespace GuessingGame

/-- u32::MAX, the largest unsigned 32-bit integer. -/
def u32Max : Nat := 4294967295

/-- The whitespace characters stripped by str::trim (restricted to the ASCII
whitespace relevant to line-based stdin input). -/
def isWsp (c : Char) : Bool := c = ' ' || c = '\t' || c = '\n' || c = '\r'

/-- Strip leading and trailing whitespace from a character list. -/
def trimChars (cs : List Char) : List Char :=
  ((cs.dropWhile isWsp).reverse.dropWhile isWsp).reverse

/-- Model of Rust str::trim as used by `guess.trim()`. -/
def rustTrim (s : String) : String := String.mk (trimChars s.data)

/-- The numeric value of a decimal digit character, none for non-digits. -/
def digitVal (c : Char) : Option Nat :=
  if '0' ≤ c && c ≤ '9' then some (c.toNat - '0'.toNat) else none

/-- Accumulate decimal digits left to right; none on a non-digit character. -/
def parseDigitsAux : List Char → Nat → Option Nat
  | [], acc => some acc
  | c :: cs, acc =>
    match digitVal c with
    | some d => parseDigitsAux cs (acc * 10 + d)
    | none => none

/-- Parse a nonempty all-digit character list to its decimal value. -/
def parseDigits : List Char → Option Nat
  | [] => none
  | cs => parseDigitsAux cs 0

/-- u32 parsing accepts one optional leading plus sign. -/
def stripPlus : List Char → List Char
  | '+' :: rest => rest
  | cs => cs

/-- Model of str::parse::<u32>() as used at `guess.trim().parse()`:
an optional leading plus sign, then at least one decimal digit, with the
value required to fit in an unsigned 32-bit integer; anything else
(empty string, minus sign, non-digits, overflow) is a parse error. -/
def parseU32 (s : String) : Option Nat :=
  match parseDigits (stripPlus s.data) with
  | some n => if n ≤ u32Max then some n else none
  | none => none

/-- "Guess the number!!", printed once at startup. -/
def bannerMsg : String := "Guess the number!!"

/-- "Please input your guess.", printed at the top of every loop iteration. -/
def promptMsg : String := "Please input your guess."

/-- "You guessed: n", printed after a successful parse. -/
def guessedMsg (n : Nat) : String := "You guessed: " ++ toString n

/-- "Too small!", printed when the guess is below the secret. -/
def tooSmallMsg : String := "Too small!"

/-- "Too big!", printed when the guess is above the secret. -/
def tooBigMsg : String := "Too big!"

/-- "You win!!", printed when the guess equals the secret. -/
def winMsg : String := "You win!!"

/-- The fixed diagnostic passed to .expect, shown when reading stdin fails. -/
def panicMsg : String := "Failed to read line"

/-- The state of the guess loop: Reading awaits another line; Terminated is
the normal exit after a win; Aborted is the panic on an I/O read failure. -/
inductive GState where
  | Reading
  | Terminated
  | Aborted
deriving DecidableEq, Repr

/-- One stdin read per iteration: either a line (the buffer filled by
read_line, at end of file an empty buffer) or an OS-level read failure. -/
inductive ReadEvent where
  | line (s : String)
  | ioError
deriving DecidableEq, Repr

/-- The observable effect of processing: lines written to stdout, lines
written to stderr, and the resulting loop state. -/
structure RunOut where
  stdout : List String
  stderr : List String
  next : GState
deriving DecidableEq, Repr

/-- Model of Ord::cmp on the unsigned integers, as in guess.cmp. -/
def natCmp (a b : Nat) : Ordering :=
  if a < b then Ordering.lt else if b < a then Ordering.gt else Ordering.eq

/-- One iteration of the guess loop body: print the prompt, take the read
event (.expect aborts on ioError), parse the trimmed buffer as u32
(continue on failure), print the guess, then match on the comparison with
the secret, breaking out of the loop on equality. -/
def iterate (secret : Nat) (ev : ReadEvent) : RunOut :=
  match ev with
  | ReadEvent.ioError => ⟨[promptMsg], [panicMsg], GState.Aborted⟩
  | ReadEvent.line s =>
    match parseU32 (rustTrim s) with
    | none => ⟨[promptMsg], [], GState.Reading⟩
    | some guess =>
      match natCmp guess secret with
      | Ordering.lt => ⟨[promptMsg, guessedMsg guess, tooSmallMsg], [], GState.Reading⟩
      | Ordering.gt => ⟨[promptMsg, guessedMsg guess, tooBigMsg], [], GState.Reading⟩
      | Ordering.eq => ⟨[promptMsg, guessedMsg guess, winMsg], [], GState.Terminated⟩

/-- Sequencing of one loop iteration with the rest of the run: while the
iteration leaves the loop in the Reading state the run continues, and once
the loop leaves the Reading state (a win break or a panic) the rest of the
input contributes nothing. -/
def stepJoin (r r2 : RunOut) : RunOut :=
  match r.next with
  | GState.Reading => ⟨r.stdout ++ r2.stdout, r.stderr ++ r2.stderr, r2.next⟩
  | st => ⟨r.stdout, r.stderr, st⟩

/-- Run the guess loop over a finite prefix of read events: the same secret
is passed unchanged to every iteration. -/
def runLoop (secret : Nat) : List ReadEvent → RunOut
  | [] => ⟨[], [], GState.Reading⟩
  | ev :: rest => stepJoin (iterate secret ev) (runLoop secret rest)

/-- Model of rand 0.x gen_range(low, high): a value in the half-open
interval from low (inclusive) to high (exclusive), the entropy drawn from
the process-wide generator abstracted as a seed. -/
def genRange (low high seed : Nat) : Nat := low + seed % (high - low)

/-- The secret: rand::thread_rng().gen_range(1, 101), drawn once per run
before the loop. -/
def secretNumber (seed : Nat) : Nat := genRange 1 101 seed

/-- Process exit status as a function of the final loop state: 0 after a
win-triggered break, 101 (the Rust panic exit code) after the .expect
abort, and none while the loop is still reading. -/
def exitCode : GState → Option Nat
  | GState.Terminated => some 0
  | GState.Aborted => some 101
  | GState.Reading => none

/-- The whole program on a finite prefix of read events: print the banner,
draw the secret once, then run the loop. -/
def runProgram (seed : Nat) (events : List ReadEvent) : RunOut :=
  let r := runLoop (secretNumber seed) events
  ⟨bannerMsg :: r.stdout, r.stderr, r.next⟩

/-- Modelled from the spec: the reduced variant, a second source file that
is not present under src/, reads exactly one line and prints it back
verbatim, with no parsing, no comparison, no secret and no loop, then the
process exits with code 0. The result is the stdout lines paired with the
exit code. -/
def echoVariant (line : String) : List String × Nat := ([line], 0)

/-- The messages the spec allows on stdout. -/
def validOut (m : String) : Prop :=
  m = bannerMsg ∨ m = promptMsg ∨ (∃ n, m = guessedMsg n) ∨
    m = tooSmallMsg ∨ m = tooBigMsg ∨ m = winMsg

/-! ### Helper lemmas -/

theorem stepJoin_reading (out errs : List String) (r2 : RunOut) :
    stepJoin ⟨out, errs, GState.Reading⟩ r2 =
      ⟨out ++ r2.stdout, errs ++ r2.stderr, r2.next⟩ := rfl

theorem stepJoin_terminated (out errs : List String) (r2 : RunOut) :
    stepJoin ⟨out, errs, GState.Terminated⟩ r2 = ⟨out, errs, GState.Terminated⟩ := rfl

theorem stepJoin_aborted (out errs : List String) (r2 : RunOut) :
    stepJoin ⟨out, errs, GState.Aborted⟩ r2 = ⟨out, errs, GState.Aborted⟩ := rfl

theorem iterate_parse_none (secret : Nat) (s : String)
    (h : parseU32 (rustTrim s) = none) :
    iterate secret (ReadEvent.line s) = ⟨[promptMsg], [], GState.Reading⟩ := by
  simp [iterate, h]

theorem iterate_parse_lt (secret g : Nat) (s : String)
    (h : parseU32 (rustTrim s) = some g) (hlt : g < secret) :
    iterate secret (ReadEvent.line s) =
      ⟨[promptMsg, guessedMsg g, tooSmallMsg], [], GState.Reading⟩ := by
  simp [iterate, h, natCmp, hlt]

theorem iterate_parse_gt (secret g : Nat) (s : String)
    (h : parseU32 (rustTrim s) = some g) (hgt : secret < g) :
    iterate secret (ReadEvent.line s) =
      ⟨[promptMsg, guessedMsg g, tooBigMsg], [], GState.Reading⟩ := by
  have hnlt : ¬ g < secret := Nat.not_lt.mpr (Nat.le_of_lt hgt)
  simp [iterate, h, natCmp, hnlt, hgt]

theorem iterate_parse_eq (secret : Nat) (s : String)
    (h : parseU32 (rustTrim s) = some secret) :
    iterate secret (ReadEvent.line s) =
      ⟨[promptMsg, guessedMsg secret, winMsg], [], GState.Terminated⟩ := by
  simp [iterate, h, natCmp]

theorem parseU32_le_max (s : String) (g : Nat) (h : parseU32 s = some g) :
    g ≤ u32Max := by
  unfold parseU32 at h
  cases hp : parseDigits (stripPlus s.data) with
  | none => rw [hp] at h; exact absurd h (by simp)
  | some n =>
    rw [hp] at h
    by_cases hle : n ≤ u32Max
    · simp [hle] at h; omega
    · simp [hle] at h

theorem stripPlus_minus (cs : List Char) : stripPlus ('-' :: cs) = '-' :: cs := rfl

theorem parseU32_minus (s : String) (cs : List Char)
    (h : s.data = '-' :: cs) : parseU32 s = none := by
  unfold parseU32
  rw [h, stripPlus_minus]
  rfl

theorem iterate_next_reading (secret : Nat) (s : String)
    (h : parseU32 (rustTrim s) ≠ some secret) :
    (iterate secret (ReadEvent.line s)).next = GState.Reading := by
  cases hp : parseU32 (rustTrim s) with
  | none => rw [iterate_parse_none secret s hp]
  | some g =>
    have hg : g ≠ secret := fun hgs => h (hgs ▸ hp)
    rcases Nat.lt_trichotomy g secret with hlt | heq | hgt
    · rw [iterate_parse_lt secret g s hp hlt]
    · exact absurd heq hg
    · rw [iterate_parse_gt secret g s hp hgt]

theorem runLoop_no_match_reading (secret : Nat) (events : List ReadEvent)
    (h : ∀ ev ∈ events, ∃ s, ev = ReadEvent.line s ∧ parseU32 (rustTrim s) ≠ some secret) :
    (runLoop secret events).next = GState.Reading := by
  induction events with
  | nil => rfl
  | cons ev rest ih =>
    obtain ⟨s, rfl, hne⟩ := h _ (List.mem_cons_self ev rest)
    have hrest := ih fun e he => h e (List.mem_cons_of_mem _ he)
    have hnext := iterate_next_reading secret s hne
    rcases hr : iterate secret (ReadEvent.line s) with ⟨out, errs, st⟩
    rw [hr] at hnext
    simp only at hnext
    subst hnext
    simp only [runLoop, hr, stepJoin_reading]
    exact hrest

theorem iterate_stdout_valid (secret : Nat) (ev : ReadEvent) (m : String)
    (h : m ∈ (iterate secret ev).stdout) : validOut m := by
  cases ev with
  | ioError =>
    simp only [iterate, List.mem_singleton] at h
    exact Or.inr (Or.inl h)
  | line s =>
    cases hp : parseU32 (rustTrim s) with
    | none =>
      rw [iterate_parse_none secret s hp] at h
      simp only [List.mem_singleton] at h
      exact Or.inr (Or.inl h)
    | some g =>
      rcases Nat.lt_trichotomy g secret with hlt | heq | hgt
      · rw [iterate_parse_lt secret g s hp hlt] at h
        simp only [List.mem_cons, List.not_mem_nil, or_false] at h
        rcases h with h | h | h
        · exact Or.inr (Or.inl h)
        · exact Or.inr (Or.inr (Or.inl ⟨g, h⟩))
        · exact Or.inr (Or.inr (Or.inr (Or.inl h)))
      · subst heq
        rw [iterate_parse_eq g s hp] at h
        simp only [List.mem_cons, List.not_mem_nil, or_false] at h
        rcases h with h | h | h
        · exact Or.inr (Or.inl h)
        · exact Or.inr (Or.inr (Or.inl ⟨g, h⟩))
        · exact Or.inr (Or.inr (Or.inr (Or.inr (Or.inr h))))
      · rw [iterate_parse_gt secret g s hp hgt] at h
        simp only [List.mem_cons, List.not_mem_nil, or_false] at h
        rcases h with h | h | h
        · exact Or.inr (Or.inl h)
        · exact Or.inr (Or.inr (Or.inl ⟨g, h⟩))
        · exact Or.inr (Or.inr (Or.inr (Or.inr (Or.inl h))))

theorem stepJoin_stdout_sub (r r2 : RunOut) (m : String)
    (h : m ∈ (stepJoin r r2).stdout) : m ∈ r.stdout ∨ m ∈ r2.stdout := by
  rcases r with ⟨out, errs, st⟩
  cases st with
  | Reading =>
    rw [stepJoin_reading] at h
    simpa using List.mem_append.mp h
  | Terminated => exact Or.inl h
  | Aborted => exact Or.inl h

theorem runLoop_stdout_valid (secret : Nat) (events : List ReadEvent) (m : String)
    (h : m ∈ (runLoop secret events).stdout) : validOut m := by
  induction events with
  | nil => exact absurd h (List.not_mem_nil m)
  | cons ev rest ih =>
    rcases stepJoin_stdout_sub _ _ m h with h1 | h2
    · exact iterate_stdout_valid secret ev m h1
    · exact ih h2

/-! ### Claim theorems -/

/-- C1: when a line is read and parses as an integer g, the loop three-way
compares g with the secret: if g is smaller the too-small message is
emitted and the loop stays in Reading; if g is larger the too-big message
is emitted and the loop stays in Reading; if g equals the secret the win
message is emitted, the loop moves to Terminated ignoring any further
input, and the process exit code is 0. -/
theorem guess_three_way_comparison (secret g : Nat) (s : String)
    (h : parseU32 (rustTrim s) = some g) :
    (g < secret → iterate secret (ReadEvent.line s) =
      ⟨[promptMsg, guessedMsg g, tooSmallMsg], [], GState.Reading⟩) ∧
    (secret < g → iterate secret (ReadEvent.line s) =
      ⟨[promptMsg, guessedMsg g, tooBigMsg], [], GState.Reading⟩) ∧
    (g = secret → ∀ rest, runLoop secret (ReadEvent.line s :: rest) =
        ⟨[promptMsg, guessedMsg g, winMsg], [], GState.Terminated⟩ ∧
      exitCode (runLoop secret (ReadEvent.line s :: rest)).next = some 0) := by
  refine ⟨iterate_parse_lt secret g s h, iterate_parse_gt secret g s h, ?_⟩
  intro heq rest
  subst heq
  have hrun : runLoop g (ReadEvent.line s :: rest) =
      ⟨[promptMsg, guessedMsg g, winMsg], [], GState.Terminated⟩ := by
    simp only [runLoop, iterate_parse_eq g s h, stepJoin_terminated]
  exact ⟨hrun, by rw [hrun]; rfl⟩

/-- Witness for C1 at secret 50 and input line "50". -/
theorem guess_three_way_comparison_witness :
    runLoop 50 [ReadEvent.line "50"] =
      ⟨[promptMsg, guessedMsg 50, winMsg], [], GState.Terminated⟩ :=
  ((guess_three_way_comparison 50 50 "50" (by decide)).2.2 rfl []).1

/-- C2: a line that reads successfully but fails to parse as a u32 is
silently discarded: the iteration emits only the prompt (no verdict, no
error), the loop state is Reading again, and the run simply continues with
the remaining input; the secret, a parameter held fixed by runLoop, is
untouched. -/
theorem parse_failure_silent (secret : Nat) (s : String) (rest : List ReadEvent)
    (h : parseU32 (rustTrim s) = none) :
    iterate secret (ReadEvent.line s) = ⟨[promptMsg], [], GState.Reading⟩ ∧
    runLoop secret (ReadEvent.line s :: rest) =
      ⟨promptMsg :: (runLoop secret rest).stdout,
       (runLoop secret rest).stderr, (runLoop secret rest).next⟩ := by
  have hit := iterate_parse_none secret s h
  refine ⟨hit, ?_⟩
  simp only [runLoop, hit, stepJoin_reading, List.singleton_append, List.nil_append]

/-- Witness for C2 at secret 1 and input line "abc". -/
theorem parse_failure_silent_witness :
    iterate 1 (ReadEvent.line "abc") = ⟨[promptMsg], [], GState.Reading⟩ :=
  (parse_failure_silent 1 "abc" [] (by decide)).1

/-- C3: the secret is drawn once from the seed and passed unchanged to every
iteration, and feeding lines that parse to secret minus one, secret plus
one, and the secret itself yields exactly the too-small, too-big and win
verdicts in that order, ending in Terminated. -/
theorem secret_fixed_for_run (seed : Nat) (s1 s2 s3 : String)
    (h1 : parseU32 (rustTrim s1) = some (secretNumber seed - 1))
    (h2 : parseU32 (rustTrim s2) = some (secretNumber seed + 1))
    (h3 : parseU32 (rustTrim s3) = some (secretNumber seed)) :
    runLoop (secretNumber seed)
        [ReadEvent.line s1, ReadEvent.line s2, ReadEvent.line s3] =
      ⟨[promptMsg, guessedMsg (secretNumber seed - 1), tooSmallMsg,
        promptMsg, guessedMsg (secretNumber seed + 1), tooBigMsg,
        promptMsg, guessedMsg (secretNumber seed), winMsg],
       [], GState.Terminated⟩ := by
  have hpos : 1 ≤ secretNumber seed := Nat.le_add_right 1 _
  have hlt : secretNumber seed - 1 < secretNumber seed := by omega
  have hgt : secretNumber seed < secretNumber seed + 1 := Nat.lt_succ_self _
  have hi1 := iterate_parse_lt (secretNumber seed) _ s1 h1 hlt
  have hi2 := iterate_parse_gt (secretNumber seed) _ s2 h2 hgt
  have hi3 := iterate_parse_eq (secretNumber seed) s3 h3
  simp only [runLoop, hi1, hi2, hi3, stepJoin_terminated, stepJoin_reading]
  rfl

/-- Witness for C3 at seed 49, whose secret is 50, with lines "49", "51",
"50". -/
theorem secret_fixed_for_run_witness :
    runLoop (secretNumber 49)
        [ReadEvent.line "49", ReadEvent.line "51", ReadEvent.line "50"] =
      ⟨[promptMsg, guessedMsg (secretNumber 49 - 1), tooSmallMsg,
        promptMsg, guessedMsg (secretNumber 49 + 1), tooBigMsg,
        promptMsg, guessedMsg (secretNumber 49), winMsg],
       [], GState.Terminated⟩ :=
  secret_fixed_for_run 49 "49" "51" "50" (by decide) (by decide) (by decide)

/-- C4: the secret generator takes no input other than the entropy seed,
cannot fail, and always lands in the closed range from 1 to 100; it is
invoked exactly once per run, before the loop, by runProgram. -/
theorem secret_generator_range (seed : Nat) :
    1 ≤ secretNumber seed ∧ secretNumber seed ≤ 100 := by
  unfold secretNumber genRange
  have h : seed % 100 < 100 := Nat.mod_lt _ (by norm_num)
  omega

/-- C5: an OS-level read failure makes the run abort at once with the fixed
diagnostic on stderr and the non-zero panic exit status 101; the remaining
input is never consumed, so the failure is never retried or recovered. -/
theorem read_failure_aborts (secret : Nat) (rest : List ReadEvent) :
    runLoop secret (ReadEvent.ioError :: rest) =
      ⟨[promptMsg], [panicMsg], GState.Aborted⟩ ∧
    exitCode (runLoop secret (ReadEvent.ioError :: rest)).next = some 101 ∧
    exitCode (runLoop secret (ReadEvent.ioError :: rest)).next ≠ some 0 := by
  have hrun : runLoop secret (ReadEvent.ioError :: rest) =
      ⟨[promptMsg], [panicMsg], GState.Aborted⟩ := by
    simp only [runLoop, iterate, stepJoin_aborted]
  exact ⟨hrun, by rw [hrun]; rfl, by rw [hrun]; simp [exitCode]⟩

/-- C6: a parsed guess below the secret emits the too-small verdict and the
loop continues with the rest of the input, and a parsed guess above the
secret emits the too-big verdict and the loop likewise continues. -/
theorem wrong_guess_continues (secret g : Nat) (s : String) (rest : List ReadEvent)
    (h : parseU32 (rustTrim s) = some g) :
    (g < secret → runLoop secret (ReadEvent.line s :: rest) =
      ⟨promptMsg :: guessedMsg g :: tooSmallMsg :: (runLoop secret rest).stdout,
       (runLoop secret rest).stderr, (runLoop secret rest).next⟩) ∧
    (secret < g → runLoop secret (ReadEvent.line s :: rest) =
      ⟨promptMsg :: guessedMsg g :: tooBigMsg :: (runLoop secret rest).stdout,
       (runLoop secret rest).stderr, (runLoop secret rest).next⟩) := by
  constructor
  · intro hlt
    simp only [runLoop, iterate_parse_lt secret g s h hlt, stepJoin_reading,
      List.cons_append, List.nil_append]
  · intro hgt
    simp only [runLoop, iterate_parse_gt secret g s h hgt, stepJoin_reading,
      List.cons_append, List.nil_append]

/-- Witness for C6 at secret 50, guess 25, input line "25". -/
theorem wrong_guess_continues_witness :
    runLoop 50 [ReadEvent.line "25"] =
      ⟨promptMsg :: guessedMsg 25 :: tooSmallMsg :: (runLoop 50 []).stdout,
       (runLoop 50 []).stderr, (runLoop 50 []).next⟩ :=
  (wrong_guess_continues 50 25 "25" [] (by decide)).1 (by decide)

/-- C7: reading at end of file succeeds with an empty buffer whose trimmed
parse fails, and more generally after any finite sequence of read events
that are all lines and none of which parses to the secret, the loop is
still in the Reading state: the run has neither terminated normally nor
aborted, and no exit code has been produced. -/
theorem no_secret_runs_forever (secret : Nat) (events : List ReadEvent)
    (h : ∀ ev ∈ events, ∃ s, ev = ReadEvent.line s ∧
      parseU32 (rustTrim s) ≠ some secret) :
    parseU32 (rustTrim "") = none ∧
    iterate secret (ReadEvent.line "") = ⟨[promptMsg], [], GState.Reading⟩ ∧
    (runLoop secret events).next = GState.Reading ∧
    exitCode (runLoop secret events).next = none := by
  have hr := runLoop_no_match_reading secret events h
  exact ⟨rfl, iterate_parse_none secret "" rfl, hr, by rw [hr]; rfl⟩

/-- Witness for C7 at secret 50 with the event list holding one empty line
(the end-of-file read) and one line "7". -/
theorem no_secret_runs_forever_witness :
    (runLoop 50 [ReadEvent.line "", ReadEvent.line "7"]).next = GState.Reading :=
  (no_secret_runs_forever 50 [ReadEvent.line "", ReadEvent.line "7"]
    (by intro ev hev
        simp only [List.mem_cons, List.not_mem_nil, or_false] at hev
        rcases hev with rfl | rfl
        · exact ⟨"", rfl, by decide⟩
        · exact ⟨"7", rfl, by decide⟩)).2.2.1

/-- C8: guesses are parsed as unsigned 32-bit integers: every parsed guess
is at most u32 maximum, a trimmed line starting with a minus sign never
parses, a digit string whose value exceeds the u32 maximum never parses,
and a line that fails to parse is discarded exactly like non-numeric
input, with only the prompt emitted and the loop back in Reading. -/
theorem guesses_are_u32 (s : String) (g : Nat) (cs : List Char) :
    (parseU32 (rustTrim s) = some g → g ≤ u32Max) ∧
    ((rustTrim s).data = '-' :: cs → parseU32 (rustTrim s) = none) ∧
    (∀ n, parseDigits (stripPlus (rustTrim s).data) = some n → u32Max < n →
      parseU32 (rustTrim s) = none) ∧
    (parseU32 (rustTrim s) = none → ∀ secret,
      iterate secret (ReadEvent.line s) = ⟨[promptMsg], [], GState.Reading⟩) := by
  refine ⟨parseU32_le_max _ g, parseU32_minus _ cs, ?_, ?_⟩
  · intro n hpd hbig
    unfold parseU32
    rw [hpd]
    simp [Nat.not_le.mpr hbig]
  · intro hnone secret
    exact iterate_parse_none secret s hnone

/-- Witness for C8 at the input line "-5". -/
theorem guesses_are_u32_witness : parseU32 (rustTrim "-5") = none :=
  (guesses_are_u32 "-5" 0 ['5']).2.1 (by decide)

/-- C9: every string the program writes to stdout over any run prefix is
the banner, the prompt, a you-guessed line for some number, the too-small
verdict, the too-big verdict, or the win verdict, each with its exact
wording; the panic diagnostic goes to stderr, not stdout. -/
theorem stdout_messages_closed (seed : Nat) (events : List ReadEvent) (m : String)
    (h : m ∈ (runProgram seed events).stdout) : validOut m := by
  unfold runProgram at h
  simp only [List.mem_cons] at h
  rcases h with rfl | h
  · exact Or.inl rfl
  · exact runLoop_stdout_valid (secretNumber seed) events m h

/-- Witness for C9 at seed 49, whose secret is 50, with a single input line
"25". -/
theorem stdout_messages_closed_witness :
    validOut tooSmallMsg :=
  stdout_messages_closed 49 [ReadEvent.line "25"] tooSmallMsg (by decide)

/-- C10: the reduced variant reads one line and prints it back verbatim,
once, with exit code 0 and no further output: on input "hello" it outputs
exactly the one line "hello". -/
theorem echo_variant_verbatim :
    echoVariant "hello" = (["hello"], 0) ∧
    ∀ s, echoVariant s = ([s], 0) :=
  ⟨rfl, fun _ => rfl⟩

end GuessingGame
